import Mathlib

/-
Shallow embedding of the countdown timer repository (Jambisi-11/peace-timer).

Sources embedded:
- src/src/App.jsx : the React countdown component. Component state
  (`secondsLeft`, `running`), the mutable refs (`endRef`, `timerRef`), the
  operator actions (`applyMinutes`, `startTimer`, `pauseTimer`,
  `resumeTimer`, `resetTimer`), the 250 ms interval callback, and the
  derived render expressions (progress ratio, final-quarter warning).
- src/sever/server.js : the Express upload relay (`POST /upload` handler
  and the multer filename generator).

Modelling conventions:
- JS numbers that are integer-valued in the program (epoch milliseconds,
  `secondsLeft`) are modelled as ℤ; general JS numbers (the parsed minutes
  input) as ℚ. Magnitudes in play are far below 2^53, where float
  arithmetic on these values is exact.
- A JS string read from the minutes input field is modelled by `StrVal`:
  the empty string (falsy for `||`), a numeric string with value q, or a
  string whose `Number(...)` conversion is NaN. `Option ℚ` models the
  result of `Number(...)`, with `none` standing for a non-finite value.
- Division results that can be NaN or ±Infinity are modelled as `Option ℚ`
  with `none` for the non-finite outcomes.
-/

namespace PeaceTimer

/-- Value of the `minutesInput` text field: empty string, a numeric string
with rational value q, or a string that `Number(...)` parses to NaN. -/
inductive StrVal
  | empty
  | num (q : ℚ)
  | nan
  deriving DecidableEq, Repr

/-- JS `Number(v)` on a `StrVal`: `Number('') = 0`; a numeric string gives
its value; `none` models NaN. -/
def jsNumber : StrVal → Option ℚ
  | .empty => some 0
  | .num q => some q
  | .nan => none

/-- JS `Math.round` on a finite value: round half toward +infinity,
`Math.round x = floor (x + 1/2)`. -/
def jsRound (q : ℚ) : ℤ := ⌊q + 1 / 2⌋

/-- JS `Math.round(a / b)` for an integer `a` and a positive integer `b`
(the tick callback divides a difference of epoch milliseconds by the
literal 1000): `round (a / b) = floor (a / b + 1/2) = (2a + b) / (2b)`,
with `/` on ℤ rounding toward minus infinity for a positive divisor. -/
def jsRoundDiv (a b : ℤ) : ℤ := (2 * a + b) / (2 * b)

/-- JS `Number(minutesInput || fallback)` where `minutesInput` is a string
and `fallback` a number: the empty string is falsy, every nonempty string
(including a NaN-string and the string with value 0) is truthy. -/
def inputNumOr (fallback : ℚ) : StrVal → Option ℚ
  | .empty => some fallback
  | .num q => some q
  | .nan => none

/-- Component state of App.jsx: `secondsLeft`/`running` (useState),
`endTime` (= `endRef.current`, `none` for null), the `minutesInput` text
field, and `showControls`. -/
structure AppState where
  secondsLeft : ℤ
  running : Bool
  endTime : Option ℤ
  minutesInput : StrVal
  showControls : Bool
  deriving DecidableEq, Repr

/-- Initial component state: `useState(300)`, not running, null `endRef`,
empty minutes field, controls hidden. -/
def initState : AppState :=
  { secondsLeft := 300, running := false, endTime := none,
    minutesInput := .empty, showControls := false }

/-- Phase of the countdown as observable in the rendered output: `Running`
iff the interval loop is active (`running = true`); when stopped the
display shows the expired caption (`Time up!`) exactly when
`secondsLeft = 0` (`Expired`), and the ordinary dial otherwise
(`Stopped`, covering the spec's Idle and Paused, which the code does not
distinguish). -/
inductive Phase
  | Running
  | Stopped
  | Expired
  deriving DecidableEq, Repr

/-- Derived phase of a component state. -/
def phase (s : AppState) : Phase :=
  if s.running then .Running else if s.secondsLeft = 0 then .Expired else .Stopped

/-- Typing into the minutes input (`onChange` → `setMinutesInput`). -/
def typeMinutes (v : StrVal) (s : AppState) : AppState :=
  { s with minutesInput := v }

/-- `applyMinutes` (the Set button): `n = Number(minutesInput)`; if
`!Number.isFinite(n) || n <= 0` then `alert('Enter minutes > 0')` and
return with no state change; else `setSecondsLeft(Math.round(n * 60))`,
`setRunning(false)`, `endRef.current = null`. The second component is the
alert message, `none` when the action succeeds. -/
def applyMinutes (s : AppState) : AppState × Option String :=
  match jsNumber s.minutesInput with
  | none => (s, some "Enter minutes > 0")
  | some n =>
    if n ≤ 0 then (s, some "Enter minutes > 0")
    else
      ({ s with
          secondsLeft := jsRound (n * 60)
          running := false
          endTime := none }, none)

/-- `startTimer`: if `secondsLeft <= 0` then `alert('Set minutes first')`
with no state change; else hide controls, set
`endRef.current = Date.now() + secondsLeft * 1000` and `setRunning(true)`.
`now` is the value of `Date.now()` at the call. -/
def startTimer (now : ℤ) (s : AppState) : AppState × Option String :=
  if s.secondsLeft ≤ 0 then (s, some "Set minutes first")
  else
    ({ s with
        showControls := false
        endTime := some (now + s.secondsLeft * 1000)
        running := true }, none)

/-- `pauseTimer`: `clearInterval(timerRef.current)` (scheduler side,
modelled in `step`), `setRunning(false)`, `endRef.current = null`.
`secondsLeft` is left at whatever the last tick published. -/
def pauseTimer (s : AppState) : AppState :=
  { s with running := false, endTime := none }

/-- `resumeTimer`: if `secondsLeft <= 0` return with no change; else
`endRef.current = Date.now() + secondsLeft * 1000`, `setRunning(true)`. -/
def resumeTimer (now : ℤ) (s : AppState) : AppState :=
  if s.secondsLeft ≤ 0 then s
  else { s with endTime := some (now + s.secondsLeft * 1000), running := true }

/-- `resetTimer`: clear the interval (scheduler side), `setRunning(false)`,
`endRef.current = null`, `setSecondsLeft(0)`. -/
def resetTimer (s : AppState) : AppState :=
  { s with running := false, endTime := none, secondsLeft := 0 }

/-- Body of the 250 ms interval callback at time `t` (= `Date.now()`):
`remain = Math.max(0, Math.round((endRef.current - Date.now()) / 1000))`;
`setSecondsLeft(remain)`; if `remain <= 0` also clear the interval,
`setRunning(false)` and null `endRef`. A null `endRef.current` coerces to
0 in the JS subtraction, hence `getD 0`. -/
def tick (t : ℤ) (s : AppState) : AppState :=
  let e := s.endTime.getD 0
  let remain := max 0 (jsRoundDiv (e - t) 1000)
  let s1 := { s with secondsLeft := remain }
  if remain ≤ 0 then { s1 with running := false, endTime := none } else s1

/-- Run the interval callback at each instant of `ts` in order. A tick
fires only while `running` is true, because the interval is created by the
`[running]` effect exactly while `running` holds and is cleared (or clears
itself on expiry) otherwise. -/
def ticksRun (ts : List ℤ) (s : AppState) : AppState :=
  ts.foldl (fun s t => if s.running then tick t s else s) s

/-- Denominator state of the render-time progress expression, times 60:
`Number(minutesInput || secondsLeft / 60) * 60`. `none` models NaN. -/
def totalSecondsView (s : AppState) : Option ℚ :=
  (inputNumOr ((s.secondsLeft : ℚ) / 60) s.minutesInput).map (fun m => m * 60)

/-- The progress ratio of the render expression
`secondsLeft / (Number(minutesInput || secondsLeft / 60) * 60)` (the
source multiplies this ratio by the ring circumference; the ratio is the
fraction the claims are about). `none` models a non-finite result: NaN
numerator path, or division by 0 (NaN or ±Infinity in JS). -/
def progressFraction (s : AppState) : Option ℚ :=
  match totalSecondsView s with
  | none => none
  | some d => if d = 0 then none else some ((s.secondsLeft : ℚ) / d)

/-- Threshold of the final-quarter warning:
`Math.ceil((Number(minutesInput || 5) * 60) / 4)`; `none` models NaN. -/
def warnThreshold (s : AppState) : Option ℤ :=
  (inputNumOr 5 s.minutesInput).map (fun m => ⌈m * 60 / 4⌉)

/-- The render condition of the `cs-warning` element:
`secondsLeft <= Math.ceil((Number(minutesInput || 5) * 60) / 4) && secondsLeft > 0`.
A NaN threshold makes the first comparison false. -/
def warningShown (s : AppState) : Bool :=
  match warnThreshold s with
  | none => false
  | some th => decide (s.secondsLeft ≤ th) && decide (0 < s.secondsLeft)

/-- State of the browser interval scheduler together with `timerRef`:
`live` holds the ids of the intervals currently scheduled, `nextId` the
next fresh id, `timerRef` the value of `timerRef.current` (`none` for
null). -/
structure SchedState where
  live : List ℕ
  nextId : ℕ
  timerRef : Option ℕ
  deriving DecidableEq, Repr

/-- `clearInterval(timerRef.current)`: cancels the interval `timerRef`
points at, if it is scheduled; clearing null or an already-cancelled id is
a no-op. -/
def clearCurrent (sc : SchedState) : SchedState :=
  match sc.timerRef with
  | none => sc
  | some h => { sc with live := sc.live.erase h }

/-- `timerRef.current = setInterval(cb, 250)`: schedules a fresh interval
and stores its id in `timerRef`. -/
def newInterval (sc : SchedState) : SchedState :=
  { live := sc.live.concat sc.nextId, nextId := sc.nextId + 1,
    timerRef := some sc.nextId }

/-- Whole system: the component state plus the interval scheduler. -/
structure Sys where
  app : AppState
  sched : SchedState
  deriving DecidableEq, Repr

/-- System state after mount: initial component state, no scheduled
interval, null `timerRef` (the `[running]` effect's first run takes the
`else` branch and calls `clearInterval(null)`, a no-op). -/
def initSys : Sys := ⟨initState, ⟨[], 0, none⟩⟩

/-- Body of the `useEffect` with dependency `[running]` (re-run whenever
`running` changed): if running, ensure `endRef.current` is set
(`Date.now() + secondsLeft * 1000`), then `clearInterval(timerRef.current)`
and `timerRef.current = setInterval(..., 250)`; otherwise
`clearInterval(timerRef.current)`. The effect cleanup also clears the
current interval, which the branches above already do (idempotent). -/
def runEffect (now : ℤ) (sys : Sys) : Sys :=
  if sys.app.running then
    let app1 :=
      if sys.app.endTime = none then
        { sys.app with endTime := some (now + sys.app.secondsLeft * 1000) }
      else sys.app
    ⟨app1, newInterval (clearCurrent sys.sched)⟩
  else ⟨sys.app, clearCurrent sys.sched⟩

/-- One externally observable event: an operator action, or the firing of
the interval with id `h` at wall-clock time `t`. -/
inductive Act
  | typeM (v : StrVal)
  | applyM
  | start (now : ℤ)
  | pause
  | resume (now : ℤ)
  | reset
  | fire (h : ℕ) (t : ℤ)

/-- Process one event: apply the handler from App.jsx (including the
direct `clearInterval` calls inside `pauseTimer`, `resetTimer` and the
expiring tick callback), then re-run the `[running]` effect when the
`running` state changed (React re-runs the effect exactly when its
dependency changed). A `fire` whose id is no longer scheduled does
nothing: a cancelled interval's callback never runs again. -/
def step (a : Act) (sys : Sys) : Sys :=
  match a with
  | .typeM v => ⟨typeMinutes v sys.app, sys.sched⟩
  | .applyM =>
    let app1 := (applyMinutes sys.app).1
    if app1.running = sys.app.running then ⟨app1, sys.sched⟩
    else ⟨app1, clearCurrent sys.sched⟩
  | .start now =>
    let app1 := (startTimer now sys.app).1
    if app1.running = sys.app.running then ⟨app1, sys.sched⟩
    else runEffect now ⟨app1, sys.sched⟩
  | .pause =>
    let sc1 := clearCurrent sys.sched
    let app1 := pauseTimer sys.app
    if app1.running = sys.app.running then ⟨app1, sc1⟩
    else ⟨app1, clearCurrent sc1⟩
  | .resume now =>
    let app1 := resumeTimer now sys.app
    if app1.running = sys.app.running then ⟨app1, sys.sched⟩
    else runEffect now ⟨app1, sys.sched⟩
  | .reset =>
    let sc1 := clearCurrent sys.sched
    let app1 := resetTimer sys.app
    if app1.running = sys.app.running then ⟨app1, sc1⟩
    else ⟨app1, clearCurrent sc1⟩
  | .fire h t =>
    if h ∈ sys.sched.live then
      let app1 := tick t sys.app
      if app1.running = sys.app.running then ⟨app1, sys.sched⟩
      else ⟨app1, clearCurrent (clearCurrent sys.sched)⟩
    else sys

/-- Run a sequence of events from a system state. -/
def runActs (acts : List Act) (sys : Sys) : Sys :=
  acts.foldl (fun sy a => step a sy) sys

/-- Scheduler invariant: either no interval is scheduled, or exactly one
is and `timerRef` points at it. -/
def schedOk (sc : SchedState) : Prop :=
  sc.live = [] ∨ ∃ h, sc.live = [h] ∧ sc.timerRef = some h

/-
Embedding of src/sever/server.js, the upload relay.
-/

/-- JS `\s` character class membership (the whitespace characters a
filename can realistically contain): space, tab, line feed, carriage
return, vertical tab, form feed, no-break space. -/
def isJsWs (c : Char) : Bool :=
  c ∈ ([' ', '\t', '\n', '\r', '\x0b', '\x0c', '\xa0'] : List Char)

/-- Replace every maximal run of whitespace by a single dash, as
`originalname.replace(/\s+/g, '-')` does: the flag records whether the
previous character was part of a whitespace run already replaced. -/
def wsCollapse : Bool → List Char → List Char
  | _, [] => []
  | prevWs, c :: cs =>
    if isJsWs c then
      if prevWs then wsCollapse true cs else '-' :: wsCollapse true cs
    else c :: wsCollapse false cs

/-- `originalname.replace(/\s+/g, '-')` on a whole string. -/
def jsReplaceWs (s : String) : String := String.mk (wsCollapse false s.data)

/-- The multer `storage.filename` callback:
`Date.now() + '-' + file.originalname.replace(/\s+/g, '-')` (`+` on a
number and strings is string concatenation of the decimal rendering). -/
def genFilename (now : ℕ) (orig : String) : String :=
  toString now ++ "-" ++ jsReplaceWs orig

/-- Response body of the `/upload` route: the 400 JSON object with field
`error` set to `No file`, or the 200 JSON object with field `filename`
set to the given string. -/
inductive UploadResp
  | errorNoFile
  | filenameField (name : String)
  deriving DecidableEq, Repr

/-- The `POST /upload` handler composed with multer's filename
generation: with no `image` multipart field, `req.file` is undefined and
the handler answers status 400 with the `No file` error body; otherwise
multer stores the file under `genFilename` and the handler answers the
default status 200 with the `uploads/<generated-name>` reference. `now`
is `Date.now()` at storage time, `file` the original name of the uploaded
file when the field is present. -/
def uploadPost (now : ℕ) (file : Option String) : ℕ × UploadResp :=
  match file with
  | none => (400, .errorNoFile)
  | some orig => (200, .filenameField ("uploads/" ++ genFilename now orig))

/-
Helper lemmas.
-/

/-- The integer rounding division agrees with `Math.round` of the exact
rational quotient. -/
lemma jsRoundDiv_eq_jsRound (a b : ℤ) (hb : 0 < b) :
    jsRoundDiv a b = jsRound ((a : ℚ) / (b : ℚ)) := by
  unfold jsRoundDiv jsRound
  have h2b : ((2 * b).toNat : ℤ) = 2 * b := Int.toNat_of_nonneg (by omega)
  have hb0 : (b : ℚ) ≠ 0 := Int.cast_ne_zero.mpr hb.ne'
  have hq : (a : ℚ) / (b : ℚ) + 1 / 2 =
      ((2 * a + b : ℤ) : ℚ) / (((2 * b).toNat : ℕ) : ℚ) := by
    have hc : (((2 * b).toNat : ℕ) : ℚ) = ((2 * b : ℤ) : ℚ) := by
      exact_mod_cast congrArg (fun z : ℤ => (z : ℚ)) h2b
    rw [hc]
    push_cast
    field_simp
    ring
  rw [hq, Rat.floor_intCast_div_natCast, h2b]

/-- Rounding an integer-valued rational is the identity. -/
lemma jsRound_intCast (n : ℤ) : jsRound ((n : ℤ) : ℚ) = n := by
  unfold jsRound
  rw [Int.floor_int_add]
  norm_num

lemma ticksRun_nil (s : AppState) : ticksRun [] s = s := rfl

lemma ticksRun_cons (t : ℤ) (ts : List ℤ) (s : AppState) :
    ticksRun (t :: ts) s = ticksRun ts (if s.running then tick t s else s) := rfl

/-- While not running no tick fires, so the state is unchanged. -/
lemma ticksRun_stopped (ts : List ℤ) (s : AppState) (h : s.running = false) :
    ticksRun ts s = s := by
  induction ts with
  | nil => rfl
  | cons t ts ih =>
    rw [ticksRun_cons, if_neg (by rw [h]; exact Bool.false_ne_true)]
    exact ih

/-- A tick at or past the deadline publishes 0 and shuts the run down. -/
lemma tick_expires (E t : ℤ) (s : AppState) (h2 : s.endTime = some E)
    (ht : E ≤ t) :
    (tick t s).running = false ∧ (tick t s).secondsLeft = 0 ∧
    (tick t s).endTime = none := by
  have hr : jsRoundDiv (E - t) 1000 ≤ 0 := by unfold jsRoundDiv; omega
  have hm : max 0 (jsRoundDiv (E - t) 1000) = 0 := by omega
  simp [tick, h2, hm]

/-- A tick either keeps running with the same target or shuts down with a
zero display: the target is never modified while the run continues. -/
lemma tick_cases (E t : ℤ) (s : AppState) (h1 : s.running = true)
    (h2 : s.endTime = some E) :
    ((tick t s).running = true ∧ (tick t s).endTime = some E) ∨
    ((tick t s).running = false ∧ (tick t s).secondsLeft = 0 ∧
      (tick t s).endTime = none) := by
  by_cases hc : max 0 (jsRoundDiv (E - t) 1000) ≤ 0
  · right
    have hm : max 0 (jsRoundDiv (E - t) 1000) = 0 := by omega
    simp [tick, h2, hm]
  · left
    simp [tick, h2, h1, hc]

/-- Main induction for drift-free expiry: from a state that is either
running toward target `E` or already shut down at zero, any tick sequence
containing an instant at or past `E` ends shut down at zero. -/
lemma ticksRun_expires (E : ℤ) (ts : List ℤ) : ∀ s : AppState,
    ((s.running = true ∧ s.endTime = some E) ∨
      (s.running = false ∧ s.secondsLeft = 0 ∧ s.endTime = none)) →
    (∃ t ∈ ts, E ≤ t) →
    (ticksRun ts s).running = false ∧ (ticksRun ts s).secondsLeft = 0 ∧
    (ticksRun ts s).endTime = none := by
  induction ts with
  | nil =>
    intro s _ hex
    simp at hex
  | cons t ts ih =>
    intro s hinv hex
    rw [ticksRun_cons]
    rcases hinv with ⟨hr, he⟩ | hdead
    · rw [if_pos hr]
      by_cases hEt : E ≤ t
      · have hd := tick_expires E t s he hEt
        rw [ticksRun_stopped ts _ hd.1]
        exact hd
      · rcases hex with ⟨t0, ht0, hEt0⟩
        rcases List.mem_cons.mp ht0 with rfl | hmem
        · exact absurd hEt0 hEt
        · rcases tick_cases E t s hr he with hA | hD
          · exact ih _ (Or.inl hA) ⟨t0, hmem, hEt0⟩
          · rw [ticksRun_stopped ts _ hD.1]
            exact hD
    · rw [if_neg (by rw [hdead.1]; exact Bool.false_ne_true)]
      rw [ticksRun_stopped ts s hdead.1]
      exact hdead

/-
Claims.
-/

/-- Claim C1: after `start()` with `remainingSeconds = R > 0`, each tick
recomputes the display from the fixed target `t0 + R * 1000`
(`max 0 (round ((target - now) / 1000))`), so for every tick schedule —
regular or irregular — containing an instant at or past the deadline, the
final state has `secondsLeft = 0`, is no longer running, has a cleared
target, and displays as Expired. -/
theorem drift_free_expiry (s : AppState) (R t0 : ℤ) (ts : List ℤ)
    (hR : 0 < R) (hsl : s.secondsLeft = R)
    (hhit : ∃ t ∈ ts, t0 + R * 1000 ≤ t) :
    (startTimer t0 s).2 = none ∧
    (∀ a : ℤ, jsRoundDiv a 1000 = jsRound ((a : ℚ) / 1000)) ∧
    (∀ (t : ℤ) (s1 : AppState), s1.endTime = some (t0 + R * 1000) →
      (tick t s1).secondsLeft = max 0 (jsRoundDiv (t0 + R * 1000 - t) 1000)) ∧
    (ticksRun ts (startTimer t0 s).1).secondsLeft = 0 ∧
    (ticksRun ts (startTimer t0 s).1).running = false ∧
    (ticksRun ts (startTimer t0 s).1).endTime = none ∧
    phase (ticksRun ts (startTimer t0 s).1) = .Expired := by
  have hns : ¬ s.secondsLeft ≤ 0 := by omega
  have hnsR : ¬ R ≤ 0 := by omega
  have h1 : (startTimer t0 s).1.running = true := by simp [startTimer, hns]
  have h2 : (startTimer t0 s).1.endTime = some (t0 + R * 1000) := by
    simp [startTimer, hsl, hnsR]
  have hmain := ticksRun_expires (t0 + R * 1000) ts _ (Or.inl ⟨h1, h2⟩) hhit
  refine ⟨by simp [startTimer, hns], ?_, ?_, hmain.2.1, hmain.1, hmain.2.2, ?_⟩
  · intro a
    rw [jsRoundDiv_eq_jsRound a 1000 (by norm_num)]
    norm_num
  · intro t s1 he
    simp only [tick, he, Option.getD_some]
    split <;> rfl
  · simp [phase, hmain.1, hmain.2.1]

/-- Claim C1 witness: at `R = 300`, `t0 = 0` with a single tick at 300000 ms the
state expires. -/
theorem drift_free_expiry_witness :
    (0 : ℤ) < 300 ∧ phase (ticksRun [300000] (startTimer 0 initState).1) = .Expired :=
  ⟨by decide,
    (drift_free_expiry initState 300 0 [300000] (by decide) rfl
      ⟨300000, by simp, by decide⟩).2.2.2.2.2.2⟩

/-- Claim C4 counterexample: from the initial state, `start()` at `t0 = 0` sets
the target to 300000; pausing at wall-clock 3000 with no tick in between
leaves `secondsLeft` at 300, whereas recomputing from the target at the
pause instant, as the claim states, would give 297. -/
theorem pause_no_recompute_cx :
    (startTimer 0 initState).1.endTime = some 300000 ∧
    (pauseTimer (startTimer 0 initState).1).secondsLeft = 300 ∧
    max 0 (jsRoundDiv (300000 - 3000) 1000) = 297 ∧ (300 : ℤ) ≠ 297 := by
  decide

/-- Claim C4 amended: `pauseTimer` clears the interval, sets `running = false`
and clears `targetEpochMillis`, but does not recompute `remainingSeconds`
from the target: the stored value stays at whatever the last tick
published. The phase is no longer Running. -/
theorem pauseTimer_preserves_secondsLeft (s : AppState) :
    (pauseTimer s).secondsLeft = s.secondsLeft ∧
    (pauseTimer s).running = false ∧
    (pauseTimer s).endTime = none ∧
    phase (pauseTimer s) ≠ .Running := by
  refine ⟨rfl, rfl, rfl, ?_⟩
  have hr : (pauseTimer s).running = false := rfl
  simp only [phase, hr, Bool.false_eq_true, if_false]
  split <;> simp

/-- Claim C5: pausing a running state with positive `secondsLeft` and resuming
after an arbitrary gap (during which any tick schedule fires, all of them
no-ops because the run is stopped) preserves `secondsLeft` exactly, and
resume re-arms the target at `now + secondsLeft * 1000`. -/
theorem pause_resume_roundtrip (s : AppState) (ts : List ℤ) (now : ℤ)
    (_hrun : s.running = true) (hpos : 0 < s.secondsLeft) :
    ticksRun ts (pauseTimer s) = pauseTimer s ∧
    (resumeTimer now (ticksRun ts (pauseTimer s))).secondsLeft = s.secondsLeft ∧
    (resumeTimer now (ticksRun ts (pauseTimer s))).endTime =
      some (now + s.secondsLeft * 1000) ∧
    (resumeTimer now (ticksRun ts (pauseTimer s))).running = true := by
  have hd : ticksRun ts (pauseTimer s) = pauseTimer s := ticksRun_stopped ts _ rfl
  rw [hd]
  have hns : ¬ s.secondsLeft ≤ 0 := by omega
  exact ⟨rfl, by simp [resumeTimer, pauseTimer, hns],
    by simp [resumeTimer, pauseTimer, hns], by simp [resumeTimer, pauseTimer, hns]⟩

/-- Claim C5 witness: pause the freshly started default timer, let a stray tick
instant pass, resume at 99000 ms: `secondsLeft` is still 300. -/
theorem pause_resume_roundtrip_witness :
    (startTimer 0 initState).1.running = true ∧
    (0 : ℤ) < (startTimer 0 initState).1.secondsLeft ∧
    (resumeTimer 99000 (ticksRun [5000] (pauseTimer (startTimer 0 initState).1))).secondsLeft =
      (startTimer 0 initState).1.secondsLeft :=
  ⟨by decide, by decide,
    (pause_resume_roundtrip (startTimer 0 initState).1 [5000] 99000
      (by decide) (by decide)).2.1⟩

/-- Typing minutes `m` and clicking Set with `m > 0` updates `secondsLeft`
to `round (m * 60)`, stops the run and clears the target; the minutes
field keeps the typed value. -/
lemma applyMinutes_pos (s : AppState) (m : ℚ) (hm : 0 < m) :
    applyMinutes (typeMinutes (.num m) s) =
      ({ s with
          secondsLeft := jsRound (m * 60)
          running := false
          endTime := none
          minutesInput := .num m }, none) := by
  have h0 : ¬ m ≤ 0 := not_le.mpr hm
  simp [applyMinutes, typeMinutes, jsNumber, h0]

/-- Concrete evaluation of `configure(5)` from the initial state. -/
lemma configure5 :
    applyMinutes (typeMinutes (.num 5) initState) =
      ({ initState with
          secondsLeft := 300
          running := false
          endTime := none
          minutesInput := .num 5 }, none) := by
  rw [applyMinutes_pos initState 5 (by norm_num)]
  rw [show jsRound ((5 : ℚ) * 60) = 300 by norm_num [jsRound]]

/-- Claim C6 counterexample: `configure(1/100)` (0.01 minutes, a finite positive
value) stores `remainingSeconds = round (0.6) = 1`, while the total the
component actually uses as denominator — `Number(minutesInput) * 60` — is
0.6, not `round (minutes * 60)`: there is no stored `totalSeconds` equal
to `remainingSeconds`. -/
theorem configure_total_cx :
    (applyMinutes (typeMinutes (.num (1 / 100)) initState)).1.secondsLeft = 1 ∧
    totalSecondsView (applyMinutes (typeMinutes (.num (1 / 100)) initState)).1 =
      some (3 / 5) ∧
    ¬ ((3 : ℚ) / 5 = ((1 : ℤ) : ℚ)) := by
  rw [applyMinutes_pos initState (1 / 100) (by norm_num)]
  refine ⟨?_, ?_, by norm_num⟩
  · show jsRound ((1 / 100 : ℚ) * 60) = 1
    norm_num [jsRound]
  · show totalSecondsView _ = some (3 / 5)
    simp [totalSecondsView, inputNumOr]
    norm_num

/-- Claim C6 amended: for every finite `minutes > 0`, configure stores
`remainingSeconds = round (minutes * 60)`, reports no error, stops the
run and clears the target timestamp; there is no stored `totalSeconds` —
the total actually used as denominator is `minutes * 60` from the input
field, which agrees with `round (minutes * 60)` exactly when
`minutes * 60` is an integer. -/
theorem configure_sets_remaining (s : AppState) (m : ℚ) (hm : 0 < m) :
    (applyMinutes (typeMinutes (.num m) s)).2 = none ∧
    (applyMinutes (typeMinutes (.num m) s)).1.secondsLeft = jsRound (m * 60) ∧
    (applyMinutes (typeMinutes (.num m) s)).1.running = false ∧
    (applyMinutes (typeMinutes (.num m) s)).1.endTime = none ∧
    totalSecondsView (applyMinutes (typeMinutes (.num m) s)).1 = some (m * 60) ∧
    ((m * 60).den = 1 → ((jsRound (m * 60) : ℤ) : ℚ) = m * 60) := by
  rw [applyMinutes_pos s m hm]
  refine ⟨rfl, rfl, rfl, rfl, by simp [totalSecondsView, inputNumOr], ?_⟩
  intro hden
  have hcast : (((m * 60).num : ℤ) : ℚ) = m * 60 := (Rat.den_eq_one_iff (m * 60)).mp hden
  calc ((jsRound (m * 60) : ℤ) : ℚ)
      = ((jsRound (((m * 60).num : ℤ) : ℚ) : ℤ) : ℚ) := by rw [hcast]
    _ = (((m * 60).num : ℤ) : ℚ) := by rw [jsRound_intCast]
    _ = m * 60 := hcast

/-- Claim C6 witness: `configure(5)` succeeds and stores `round (5 * 60)`. -/
theorem configure_sets_remaining_witness :
    (0 : ℚ) < 5 ∧
    (applyMinutes (typeMinutes (.num 5) initState)).1.secondsLeft = jsRound (5 * 60) :=
  ⟨by decide, (configure_sets_remaining initState 5 (by decide)).2.1⟩

/-- Claim C7: `configure` with a non-positive parsed value (a numeric string
with value `q ≤ 0`, covering 0 and -5), with a NaN parse, or with the
empty field (`Number('') = 0`), reports the invalid-duration alert
synchronously and leaves the component state unchanged — in particular
`secondsLeft`, `running` and `endTime` keep their values. -/
theorem configure_rejects_invalid (s : AppState) (q : ℚ) (hq : q ≤ 0) :
    applyMinutes (typeMinutes (.num q) s) =
      (typeMinutes (.num q) s, some "Enter minutes > 0") ∧
    applyMinutes (typeMinutes .nan s) =
      (typeMinutes .nan s, some "Enter minutes > 0") ∧
    applyMinutes (typeMinutes .empty s) =
      (typeMinutes .empty s, some "Enter minutes > 0") ∧
    (applyMinutes (typeMinutes (.num q) s)).1.secondsLeft = s.secondsLeft ∧
    (applyMinutes (typeMinutes (.num q) s)).1.running = s.running ∧
    (applyMinutes (typeMinutes (.num q) s)).1.endTime = s.endTime := by
  refine ⟨?_, ?_, ?_, ?_, ?_, ?_⟩ <;>
    simp [applyMinutes, typeMinutes, jsNumber, hq]

/-- Claim C7 witness: `configure(-5)` is rejected with the alert and no state
change. -/
theorem configure_rejects_invalid_witness :
    (-5 : ℚ) ≤ 0 ∧
    applyMinutes (typeMinutes (.num (-5)) initState) =
      (typeMinutes (.num (-5)) initState, some "Enter minutes > 0") :=
  ⟨by decide, (configure_rejects_invalid initState (-5) (by decide)).1⟩

/-- Claim C2 counterexample: after `reset()` from the initial state (a reachable
state with `secondsLeft = 0` and an empty minutes field) the progress
denominator `Number(minutesInput || secondsLeft / 60) * 60` is 0, and the
progress fraction is the non-finite `0 / 0` (NaN), not the claimed 0:
there is no division-by-zero guard. -/
theorem progress_zero_guard_cx :
    totalSecondsView (resetTimer initState) = some 0 ∧
    progressFraction (resetTimer initState) = none ∧
    progressFraction (resetTimer initState) ≠ some 0 := by
  have h1 : totalSecondsView (resetTimer initState) = some 0 := by
    simp [totalSecondsView, inputNumOr, resetTimer, initState]
  have h2 : progressFraction (resetTimer initState) = none := by
    unfold progressFraction
    rw [h1]
    simp
  exact ⟨h1, h2, by rw [h2]; exact fun h => Option.noConfusion h⟩

/-- Claim C2 amended: the progress fraction is
`secondsLeft / (Number(minutesInput || secondsLeft / 60) * 60)`, with no
zero guard: a zero denominator yields a non-finite value, not 0. It is
exactly 1 immediately after configure provided `minutes * 60` is an
integer, and exactly 0 at a zero display provided the minutes field holds
a nonzero number. -/
theorem progress_configure_expired (s : AppState) (m : ℚ) (hm : 0 < m)
    (hden : (m * 60).den = 1) :
    progressFraction (applyMinutes (typeMinutes (.num m) s)).1 = some 1 ∧
    (∀ s2 : AppState, s2.minutesInput = .num m → s2.secondsLeft = 0 →
      progressFraction s2 = some 0) ∧
    (∀ s3 : AppState, totalSecondsView s3 = some 0 →
      progressFraction s3 = none) := by
  have hm60 : (m * 60 : ℚ) ≠ 0 := by positivity
  refine ⟨?_, ?_, ?_⟩
  · rw [applyMinutes_pos s m hm]
    have ht : totalSecondsView
        ({ s with
            secondsLeft := jsRound (m * 60)
            running := false
            endTime := none
            minutesInput := .num m } : AppState) = some (m * 60) := by
      simp [totalSecondsView, inputNumOr]
    have hcast : (((m * 60).num : ℤ) : ℚ) = m * 60 := (Rat.den_eq_one_iff (m * 60)).mp hden
    have hj : ((jsRound (m * 60) : ℤ) : ℚ) = m * 60 := by
      calc ((jsRound (m * 60) : ℤ) : ℚ)
          = ((jsRound (((m * 60).num : ℤ) : ℚ) : ℤ) : ℚ) := by rw [hcast]
        _ = (((m * 60).num : ℤ) : ℚ) := by rw [jsRound_intCast]
        _ = m * 60 := hcast
    unfold progressFraction
    rw [ht]
    simp [hm60, hj, div_self hm60]
  · intro s2 hin hsl
    have ht : totalSecondsView s2 = some (m * 60) := by
      simp [totalSecondsView, hin, inputNumOr]
    unfold progressFraction
    rw [ht]
    simp [hm60, hsl]
  · intro s3 ht
    unfold progressFraction
    rw [ht]
    simp

/-- Claim C2 witness: after `configure(5)` the fraction is exactly 1. -/
theorem progress_configure_expired_witness :
    (0 : ℚ) < 5 ∧
    progressFraction (applyMinutes (typeMinutes (.num 5) initState)).1 = some 1 :=
  ⟨by decide, (progress_configure_expired initState 5 (by decide) (by norm_num)).1⟩

/-- Claim C3 counterexample: `configure(5)` stores 300 seconds (the operator's
last Set, so the claimed `totalSeconds` is 300 and the claimed indicator
`300 > 0 && 300 <= ceil(300 / 4)` is false), but after typing 100 into
the minutes field without clicking Set the rendered warning condition is
true, because the code derives the threshold from the current input text,
not from the last applied Set. -/
theorem warning_last_set_cx :
    (applyMinutes (typeMinutes (.num 5) initState)).1.secondsLeft = 300 ∧
    warningShown
      (typeMinutes (.num 100) (applyMinutes (typeMinutes (.num 5) initState)).1) =
      true ∧
    ¬ ((0 : ℤ) < 300 ∧ (300 : ℤ) ≤ ⌈(300 : ℚ) / 4⌉) := by
  rw [configure5]
  refine ⟨rfl, ?_, ?_⟩
  · simp [warningShown, warnThreshold, typeMinutes, inputNumOr]
    norm_num
  · rw [show ⌈(300 : ℚ) / 4⌉ = 75 by norm_num]
    omega

/-- Claim C3 amended: the warning indicator equals
`remainingSeconds > 0 && remainingSeconds <= ceil(m * 60 / 4)` where `m`
is the number currently in the minutes field (not the last applied Set;
the field is treated as 5 when empty and disables the warning when it
parses to NaN); in the cited scenario — `configure(5)`, `start()`, 3:45
elapsed — the remaining time is 75 and the warning shows. -/
theorem warning_tracks_input :
    (∀ (s : AppState) (m : ℚ), s.minutesInput = .num m →
      warningShown s =
        (decide (s.secondsLeft ≤ ⌈m * 60 / 4⌉) && decide (0 < s.secondsLeft))) ∧
    (tick 225000 (startTimer 0 (applyMinutes (typeMinutes (.num 5) initState)).1).1).secondsLeft = 75 ∧
    warningShown
      (tick 225000 (startTimer 0 (applyMinutes (typeMinutes (.num 5) initState)).1).1) =
      true := by
  have hgen : ∀ (s : AppState) (m : ℚ), s.minutesInput = .num m →
      warningShown s =
        (decide (s.secondsLeft ≤ ⌈m * 60 / 4⌉) && decide (0 < s.secondsLeft)) := by
    intro s m hin
    simp [warningShown, warnThreshold, hin, inputNumOr]
  refine ⟨hgen, ?_, ?_⟩
  · rw [configure5]
    decide
  · rw [configure5]
    rw [hgen _ 5 rfl]
    rw [show ⌈(5 : ℚ) * 60 / 4⌉ = 75 by norm_num]
    decide

/-- Claim C3 witness: in a state whose minutes field holds 5 the warning
condition is the input-derived formula. -/
theorem warning_tracks_input_witness :
    ({ initState with minutesInput := StrVal.num 5 } : AppState).minutesInput =
      StrVal.num 5 ∧
    warningShown ({ initState with minutesInput := StrVal.num 5 } : AppState) =
      (decide (({ initState with minutesInput := StrVal.num 5 } : AppState).secondsLeft ≤
          ⌈(5 : ℚ) * 60 / 4⌉) &&
        decide (0 < ({ initState with minutesInput := StrVal.num 5 } : AppState).secondsLeft)) :=
  ⟨rfl, warning_tracks_input.1 { initState with minutesInput := StrVal.num 5 } 5 rfl⟩

lemma runActs_nil (sys : Sys) : runActs [] sys = sys := rfl

lemma runActs_cons (a : Act) (acts : List Act) (sys : Sys) :
    runActs (a :: acts) sys = runActs acts (step a sys) := rfl

/-- Under the scheduler invariant, clearing the current interval leaves no
interval scheduled. -/
lemma clearCurrent_live_nil (sc : SchedState) (hok : schedOk sc) :
    (clearCurrent sc).live = [] := by
  rcases hok with h | ⟨k, hl, hr⟩
  · cases h2 : sc.timerRef <;> simp [clearCurrent, h2, h]
  · simp [clearCurrent, hr, hl]

lemma schedOk_of_nil (sc : SchedState) (h : sc.live = []) : schedOk sc := Or.inl h

lemma schedOk_clearCurrent (sc : SchedState) (hok : schedOk sc) :
    schedOk (clearCurrent sc) :=
  Or.inl (clearCurrent_live_nil sc hok)

/-- Scheduling a fresh interval when none is live restores the invariant:
the new interval is the only one and `timerRef` points at it. -/
lemma schedOk_newInterval (sc : SchedState) (h : sc.live = []) :
    schedOk (newInterval sc) :=
  Or.inr ⟨sc.nextId, by simp [newInterval, h], rfl⟩

/-- The `[running]` effect preserves the scheduler invariant: both
branches clear the current interval first, and only then (when running)
schedule exactly one fresh interval. -/
lemma schedOk_runEffect (now : ℤ) (sys : Sys) (hok : schedOk sys.sched) :
    schedOk (runEffect now sys).sched := by
  unfold runEffect
  by_cases hb : sys.app.running = true
  · simp only [hb, if_true]
    exact schedOk_newInterval _ (clearCurrent_live_nil _ hok)
  · simp only [hb, if_false]
    exact schedOk_clearCurrent _ hok

/-- Every event preserves the scheduler invariant. -/
lemma step_schedOk (a : Act) (sys : Sys) (hok : schedOk sys.sched) :
    schedOk (step a sys).sched := by
  cases a with
  | typeM v => exact hok
  | applyM =>
    simp only [step]
    split
    · exact hok
    · exact schedOk_clearCurrent _ hok
  | start now =>
    simp only [step]
    split
    · exact hok
    · exact schedOk_runEffect now _ hok
  | pause =>
    simp only [step]
    split
    · exact schedOk_clearCurrent _ hok
    · exact schedOk_clearCurrent _ (schedOk_clearCurrent _ hok)
  | resume now =>
    simp only [step]
    split
    · exact hok
    · exact schedOk_runEffect now _ hok
  | reset =>
    simp only [step]
    split
    · exact schedOk_clearCurrent _ hok
    · exact schedOk_clearCurrent _ (schedOk_clearCurrent _ hok)
  | fire i t =>
    simp only [step]
    split
    · split
      · exact hok
      · exact schedOk_clearCurrent _ (schedOk_clearCurrent _ hok)
    · exact hok

lemma runActs_schedOk (acts : List Act) : ∀ sys : Sys, schedOk sys.sched →
    schedOk (runActs acts sys).sched := by
  induction acts with
  | nil => intro sys h; exact h
  | cons a acts ih =>
    intro sys h
    rw [runActs_cons]
    exact ih _ (step_schedOk a sys h)

/-- Claim C8: from the mounted system, after any sequence of operator actions
and tick firings at most one interval is ever scheduled (every path that
creates an interval first clears the current one), and the firing of an
interval id that is no longer scheduled is a no-op — no tick runs after
its cancellation. -/
theorem single_sampler (acts : List Act) :
    ((runActs acts initSys).sched.live).length ≤ 1 ∧
    (∀ (sys : Sys) (i : ℕ) (t : ℤ), i ∉ sys.sched.live →
      step (.fire i t) sys = sys) := by
  constructor
  · have hok := runActs_schedOk acts initSys (Or.inl rfl)
    rcases hok with h | ⟨k, hl, _⟩
    · simp [h]
    · simp [hl]
  · intro sys i t hmem
    simp [step, hmem]

/-- Claim C8 witness: the empty run keeps at most one interval, and a stale
fire on the mounted system does nothing. -/
theorem single_sampler_witness :
    ((runActs [] initSys).sched.live).length ≤ 1 ∧
    step (.fire 0 0) initSys = initSys :=
  ⟨(single_sampler []).1, (single_sampler []).2 initSys 0 0 (by decide)⟩

/-- Claim C10: `start()` on a system whose timer is already running with
positive `secondsLeft` is not rejected: it re-anchors the target to
`now + secondsLeft * 1000` computed from the currently displayed value,
leaves `secondsLeft` untouched, stays running, and — because `running` did
not change — the `[running]` effect does not re-run, so the scheduler
state (the existing single interval) is exactly the one from before. -/
theorem start_while_running (sys : Sys) (now : ℤ)
    (hrun : sys.app.running = true) (hpos : 0 < sys.app.secondsLeft) :
    (startTimer now sys.app).2 = none ∧
    (step (.start now) sys).sched = sys.sched ∧
    (step (.start now) sys).app.secondsLeft = sys.app.secondsLeft ∧
    (step (.start now) sys).app.running = true ∧
    (step (.start now) sys).app.endTime = some (now + sys.app.secondsLeft * 1000) := by
  have h0 : ¬ sys.app.secondsLeft ≤ 0 := by omega
  refine ⟨by simp [startTimer, h0], ?_, ?_, ?_, ?_⟩ <;>
    simp [step, startTimer, h0, hrun]

/-- Claim C10 witness: starting the mounted system and then hitting Start again
at 5000 ms keeps the same scheduler state. -/
theorem start_while_running_witness :
    (step (.start 0) initSys).app.running = true ∧
    (0 : ℤ) < (step (.start 0) initSys).app.secondsLeft ∧
    (step (.start 5000) (step (.start 0) initSys)).sched =
      (step (.start 0) initSys).sched :=
  ⟨by decide, by decide,
    (start_while_running (step (.start 0) initSys) 5000 (by decide) (by decide)).2.1⟩

/-- Every character produced by the whitespace collapse is a
non-whitespace character: a whitespace run is emitted as a dash and
ordinary characters are kept. -/
lemma wsCollapse_no_ws (l : List Char) : ∀ (p : Bool) (c : Char),
    c ∈ wsCollapse p l → isJsWs c = false := by
  induction l with
  | nil =>
    intro p c hc
    simp [wsCollapse] at hc
  | cons a l ih =>
    intro p c hc
    by_cases ha : isJsWs a
    · rw [wsCollapse, if_pos ha] at hc
      cases p with
      | true => exact ih true c hc
      | false =>
        rcases List.mem_cons.mp hc with rfl | hmem
        · decide
        · exact ih true c hmem
    · rw [wsCollapse, if_neg ha] at hc
      rcases List.mem_cons.mp hc with rfl | hmem
      · exact Bool.not_eq_true _ ▸ (by simpa using ha)
      · exact ih false c hmem

/-- Claim C9: the upload relay answers `POST /upload` without the `image` field
with status 400 and the `No file` error body; with the field present it
answers status 200 and the body referencing `uploads/<generated-name>`,
where the generated name is the storage timestamp, a dash, and the
original name with every whitespace run replaced by a dash — so every
generated name is timestamp-prefixed and free of whitespace. -/
theorem upload_contract :
    (∀ now : ℕ, uploadPost now none = (400, .errorNoFile)) ∧
    (∀ (now : ℕ) (orig : String),
      uploadPost now (some orig) =
        (200, .filenameField ("uploads/" ++ (toString now ++ "-" ++ jsReplaceWs orig)))) ∧
    (∀ (now : ℕ) (orig : String), ∃ rest,
      genFilename now orig = toString now ++ "-" ++ rest) ∧
    (∀ (orig : String) (c : Char), c ∈ (jsReplaceWs orig).data → isJsWs c = false) := by
  refine ⟨fun now => rfl, fun now orig => rfl,
    fun now orig => ⟨jsReplaceWs orig, rfl⟩, ?_⟩
  intro orig c hc
  exact wsCollapse_no_ws orig.data false c hc

/-- Claim C9 witness: the missing-field response, and the concrete name
`a b` collapses to the whitespace-free `a-b`. -/
theorem upload_contract_witness :
    uploadPost 7 none = (400, UploadResp.errorNoFile) ∧
    isJsWs 'a' = false :=
  ⟨upload_contract.1 7,
    upload_contract.2.2.2 (String.mk (['a', ' ', 'b'] : List Char)) 'a' (by decide)⟩

end PeaceTimer
